import Mathlib

/-!
Verification of the hdman session/deployment lifecycle engine
(`gu-provider/src/hdman.rs`).

The engine is shallowly embedded as a state-transition system:
the actor state (`DeployManager` registry plus the filesystem
directories it manages) is an explicit `St` value, every request
handler is a pure function on `St`, and the outcomes of external
effects (process spawn, synchronous exec, kill requests, file
transfer, directory removal) are supplied as oracle data attached
to the corresponding event, matching the branches the source code
takes on each outcome.

Helper modules of the repository that are referenced from
`hdman.rs` but whose sources are not available (`deployment`,
`workspace`, `id`, `sync_exec`) are modelled from the
specification; each such definition carries a doc comment saying
so.
-/

/-- Decidable equality for `Except`, so that concrete handler results can
be checked by `decide`. -/
def exceptDecEq {ε α : Type} [DecidableEq ε] [DecidableEq α] : DecidableEq (Except ε α)
  | Except.error x, Except.error y =>
    if h : x = y then isTrue (by simp [h]) else isFalse (by simp [h])
  | Except.error _, Except.ok _ => isFalse (by simp)
  | Except.ok _, Except.error _ => isFalse (by simp)
  | Except.ok x, Except.ok y =>
    if h : x = y then isTrue (by simp [h]) else isFalse (by simp [h])

instance {ε α : Type} [DecidableEq ε] [DecidableEq α] : DecidableEq (Except ε α) :=
  exceptDecEq

/-- Session status, after `gu_net::rpc::peer::PeerSessionStatus` as used by
`hdman.rs` (the four states named in the specification). -/
inductive PeerSessionStatus
  | PENDING
  | CREATED
  | CONFIGURED
  | RUNNING
  deriving DecidableEq

/-- A tracked child process handle (`std::process::Child`).  `finished` is
what `try_wait` reports (`Ok(Some exit_status)` versus not-yet-finished);
`killFails` and `waitFails` are the outcomes of `kill()` and `wait()`,
whose results `SessionInfo::destroy` discards. -/
structure Child where
  finished : Bool
  killFails : Bool
  waitFails : Bool
  deriving DecidableEq

/-- Error taxonomy of `gu_model::envman::Error` as used by `hdman.rs`. -/
inductive Error
  | noSuchSession (id : String)
  | noSuchChild (id : String)
  | ioError (msg : String)
  | transferError (msg : String)
  | unpackError (msg : String)
  deriving DecidableEq

/-- Modelled from the spec: the `Display` rendering of errors (the source
calls `.to_string()` on errors before pushing them into the output trail;
the `Display` impl lives in `gu_model`, outside the available sources).
Distinct constructors render distinctly, which is all the claims use. -/
def Error.render : Error → String
  | .noSuchSession i => "no such session: " ++ i
  | .noSuchChild i => "no such child: " ++ i
  | .ioError msg => "io error: " ++ msg
  | .transferError msg => "transfer error: " ++ msg
  | .unpackError msg => "unpack error: " ++ msg

/-- Association-list lookup (first entry with the given key), the model of
`HashMap` lookup used for both the deploy registry and per-session process
tables. -/
def lookupA {α : Type} : List (String × α) → String → Option α
  | [], _ => none
  | (k, v) :: rest, key => if k = key then some v else lookupA rest key

/-- Replace the value at a key (model of in-place `HashMap` mutation). -/
def updateA {α : Type} : List (String × α) → String → α → List (String × α)
  | [], _, _ => []
  | (k, v) :: rest, key, nv =>
    if k = key then (k, nv) :: updateA rest key nv else (k, v) :: updateA rest key nv

/-- Remove a key (model of `HashMap::remove`). -/
def removeA {α : Type} : List (String × α) → String → List (String × α)
  | [], _ => []
  | (k, v) :: rest, key =>
    if k = key then removeA rest key else (k, v) :: removeA rest key

/-- Key-membership test (model of `HashMap::contains_key` /
`DeployManager::contains_deploy`). -/
def containsA {α : Type} (l : List (String × α)) (key : String) : Bool :=
  (lookupA l key).isSome

/-- Modelled from the spec: `Workspace` (module `workspace`, not among the
available sources): a human name, the workspace directory path, and a tag
set; "order irrelevant, duplicates collapse". -/
structure Workspace where
  name : String
  path : String
  tags : List String
  deriving DecidableEq

/-- Insert one tag into the tag set (no duplicates). -/
def insertTag (ts : List String) (t : String) : List String :=
  if t ∈ ts then ts else ts ++ [t]

/-- Modelled from the spec: `Workspace::add_tags` adds tags as a set
(duplicates collapse). -/
def Workspace.add_tags (w : Workspace) (ts : List String) : Workspace :=
  { w with tags := ts.foldl insertTag w.tags }

/-- Modelled from the spec: `Workspace::remove_tags` removes the given
tags from the tag set. -/
def Workspace.remove_tags (w : Workspace) (ts : List String) : Workspace :=
  { w with tags := w.tags.filter (fun t => ¬ t ∈ ts) }

/-- Internal session representation (`SessionInfo` in `hdman.rs`). -/
structure SessionInfo where
  workspace : Workspace
  status : PeerSessionStatus
  /-- used to determine proper status when last child is finished -/
  dirty : Bool
  note : Option String
  processes : List (String × Child)
  deriving DecidableEq

/-- Modelled from the spec: `id::generate_new_id` produces a child id that
is locally unique among the currently tracked children of one session
(first free index, fuel-bounded search). -/
def freshIdx (used : List String) : Nat → Nat → Nat
  | i, 0 => i
  | i, fuel + 1 => if ("p" ++ toString i) ∈ used then freshIdx used (i + 1) fuel else i

/-- Modelled from the spec: generate a fresh child id for a process table. -/
def genNewId (ps : List (String × Child)) : String :=
  "p" ++ toString (freshIdx (ps.map Prod.fst) 0 (ps.length + 1))

/-- `SessionInfo::insert_process`: generate a fresh child id, insert the
handle, mark the session dirty and `RUNNING`; returns the new id. -/
def SessionInfo.insert_process (s : SessionInfo) (child : Child) : String × SessionInfo :=
  let i := genNewId s.processes
  (i, { s with processes := (i, child) :: s.processes,
               dirty := true,
               status := PeerSessionStatus.RUNNING })

/-- The `HdMan` actor state: the deploy registry (session id to
`SessionInfo`) plus the set of existing workspace directories, which
stands in for the filesystem effects of `create_dirs` / `clear_dir`. -/
structure St where
  reg : List (String × SessionInfo)
  dirs : List String
  deriving DecidableEq

/-- Outcome of a synchronous `Exec::Run` request.  Modelled from the spec:
`SyncExecManager` (module `sync_exec`, not among the available sources)
replies to a `Run` request with `ExecResult::Run` carrying the captured
standard output, or with the execution error. -/
inductive ExecEv
  | ok (stdout : String)
  | err (msg : String)
  deriving DecidableEq

/-- Outcome of spawning a detached process (`process::Command::spawn`). -/
inductive SpawnEv
  | ok (child : Child)
  | err (msg : String)
  deriving DecidableEq

/-- Outcome of the `Exec::Kill` round-trip in the `Stop` arm: a mailbox
send error, a kill request that did not produce an `ExecResult::Kill`
(the source's "wrong result" branch), or a successful kill carrying its
output. -/
inductive KillEv
  | sendErr (msg : String)
  | execErr (reprStr : String)
  | ok (output : String)
  deriving DecidableEq

/-- A pipeline command paired with the oracle outcome of its external
effect — the shallow embedding of `gu_model::envman::Command` as consumed
by `Handler<SessionUpdate> for HdMan`. -/
inductive CmdEvent
  | openC
  | closeC
  | exec (ev : ExecEv)
  | start (ev : SpawnEv)
  | stop (childId : String) (ev : KillEv)
  | addTags (tags : List String)
  | delTags (tags : List String)
  | downloadFile (uri : String) (res : ExecEv)
  | uploadFile (uri : String) (res : ExecEv)
  deriving DecidableEq

/-- Rendering of a tag list (stands in for the `{:?}` debug formatting of
the tag set in the `AddTags` / `DelTags` outputs). -/
def reprTags (ts : List String) : String :=
  String.intercalate ", " ts

/-- One step of the pipeline built by `Handler<SessionUpdate> for HdMan`:
the effect of a single `Command` on the actor state, given the
accumulated output trail.  Mirrors the per-command arms of the source:
each arm pushes onto the trail and errors exactly where the source's
future chain does. -/
def stepCmd (sid : String) (e : CmdEvent) (st : St) (trail : List String) :
    Except (List String) (List String) × St :=
  match e with
  | .openC => (Except.ok trail, st)
  | .closeC => (Except.ok trail, st)
  | .exec ev =>
    match ev with
    | .err m => (Except.error (trail ++ [m]), st)
    | .ok stdout =>
      let trail1 := trail ++ [stdout]
      match lookupA st.reg sid with
      | some s =>
        (Except.ok trail1, { st with reg := updateA st.reg sid { s with dirty := true } })
      | none =>
        (Except.error (trail1 ++ [(Error.noSuchSession sid).render]), st)
  | .start ev =>
    match ev with
    | .err m => (Except.error (trail ++ [m]), st)
    | .ok child =>
      match lookupA st.reg sid with
      | some s =>
        let r := s.insert_process child
        (Except.ok (trail ++ [r.1]), { st with reg := updateA st.reg sid r.2 })
      | none =>
        (Except.error (trail ++ [(Error.noSuchSession sid).render]), st)
  | .stop childId kev =>
    match lookupA st.reg sid with
    | none => (Except.error (trail ++ [(Error.noSuchSession sid).render]), st)
    | some s =>
      match lookupA s.processes childId with
      | none => (Except.error (trail ++ [(Error.noSuchChild childId).render]), st)
      | some _child =>
        let st1 := { st with reg := updateA st.reg sid { s with processes := removeA s.processes childId } }
        match kev with
        | .sendErr m => (Except.error (trail ++ [m]), st1)
        | .execErr r => (Except.error (trail ++ ["wrong result " ++ r]), st1)
        | .ok output =>
          match lookupA st1.reg sid with
          | none => (Except.error (trail ++ [(Error.noSuchSession sid).render]), st1)
          | some s1 =>
            let s2 := if s1.processes.isEmpty
                      then { s1 with status := PeerSessionStatus.CONFIGURED }
                      else s1
            (Except.ok (trail ++ [output]), { st1 with reg := updateA st1.reg sid s2 })
  | .addTags tags =>
    match lookupA st.reg sid with
    | some s =>
      let ws := tags.foldl (fun w t => w.add_tags [t]) s.workspace
      (Except.ok (trail ++ ["tags inserted. Current tags are: " ++ reprTags ws.tags]),
       { st with reg := updateA st.reg sid { s with workspace := ws } })
    | none => (Except.error (trail ++ [(Error.noSuchSession sid).render]), st)
  | .delTags tags =>
    match lookupA st.reg sid with
    | some s =>
      let ws := s.workspace.remove_tags tags
      (Except.ok (trail ++ ["tags removed. Current tags are: " ++ reprTags ws.tags]),
       { st with reg := updateA st.reg sid { s with workspace := ws } })
    | none => (Except.error (trail ++ [(Error.noSuchSession sid).render]), st)
  | .downloadFile uri res =>
    match res with
    | .ok _ => (Except.ok (trail ++ [uri ++ " file downloaded"]), st)
    | .err m => (Except.error (trail ++ [m]), st)
  | .uploadFile uri res =>
    match res with
    | .ok _ => (Except.ok (trail ++ [uri ++ " file uploaded"]), st)
    | .err m => (Except.error (trail ++ [m]), st)

/-- The sequential composition of the per-command futures: run the
commands in list order, short-circuiting on the first error (the
`and_then` chain semantics of the source's `future_chain`). -/
def runPipeline (sid : String) : List CmdEvent → St → List String →
    Except (List String) (List String) × St
  | [], st, trail => (Except.ok trail, st)
  | e :: rest, st, trail =>
    match stepCmd sid e st trail with
    | (Except.ok trail1, st1) => runPipeline sid rest st1 trail1
    | (Except.error v, st1) => (Except.error v, st1)

/-- `Handler<SessionUpdate> for HdMan`: reject unknown session ids before
any command runs; otherwise execute the pipeline. -/
def handleSessionUpdate (st : St) (sid : String) (evs : List CmdEvent) :
    Except (List String) (List String) × St :=
  if containsA st.reg sid then runPipeline sid evs st []
  else (Except.error [(Error.noSuchSession sid).render], st)

/-- One session's part of `HdMan::scan_for_processes`: collect the ids of
children whose `try_wait` reports completion, remove each collected id
from the process table, and if some were collected and the table is now
empty, set the status to `CONFIGURED`. -/
def scanSession (s : SessionInfo) : SessionInfo :=
  let finished := (s.processes.filter (fun p => p.2.finished)).map Prod.fst
  let someFinished := ¬ finished.isEmpty
  let ps := finished.foldl (fun m f => removeA m f) s.processes
  if someFinished ∧ ps.isEmpty
  then { s with processes := ps, status := PeerSessionStatus.CONFIGURED }
  else { s with processes := ps }

/-- `HdMan::scan_for_processes`: the reaper pass over every registered
session (run every 10 seconds by `Actor::started`). -/
def scanForProcesses (st : St) : St :=
  { st with reg := st.reg.map (fun p => (p.1, scanSession p.2)) }

/-- `Destroy for SessionInfo` (`SessionInfo::destroy`): kill every tracked
child and wait on every tracked child — both result collections are bound
to `_` and discarded in the source — then `workspace.clear_dir()`, whose
result alone is the destroy result.  `clearOk` is the filesystem oracle
for the recursive directory removal. -/
def SessionInfo.destroySI (s : SessionInfo) (clearOk : Bool) (dirs : List String) :
    Except Error Unit × List String :=
  let _killResults := s.processes.map (fun p => if p.2.killFails then (false : Bool) else true)
  let _waitResults := s.processes.map (fun p => if p.2.waitFails then (false : Bool) else true)
  if clearOk then (Except.ok (), dirs.filter (fun d => d ≠ s.workspace.path))
  else (Except.error (Error.ioError "cannot clear workspace dir"), dirs)

/-- Modelled from the spec: `DeployManager::destroy_deploy` (module
`deployment`, not among the available sources): run the session's
teardown; remove the registry entry only if teardown succeeds, otherwise
keep the entry and return the teardown error. -/
def destroyDeploy (st : St) (sid : String) (clearOk : Bool) : Except Error Unit × St :=
  match lookupA st.reg sid with
  | none => (Except.error (Error.noSuchSession sid), st)
  | some s =>
    match s.destroySI clearOk st.dirs with
    | (Except.ok _, dirs1) => (Except.ok (), { reg := removeA st.reg sid, dirs := dirs1 })
    | (Except.error e, dirs1) => (Except.error e, { st with dirs := dirs1 })

/-- `Handler<DestroySession> for HdMan`. -/
def handleDestroySession (st : St) (sid : String) (clearOk : Bool) :
    Except Error String × St :=
  match destroyDeploy st sid clearOk with
  | (Except.ok _, st1) => (Except.ok "Session closed", st1)
  | (Except.error e, st1) => (Except.error e, st1)

/-- `Handler<CreateSession> for HdMan`, with the provisioning chain run to
completion: create the workspace directories (failing the request early
on error), register the session as `PENDING`, then either mark it
`CREATED` on provisioning success, or on provisioning failure roll back
via `destroy_deploy`, surfacing `IoError("creating session error: ...")`
wrapping the original cause when the rollback succeeds and the rollback
error itself when it fails.  `mkDirOk`, `prov` and `rollbackClearOk` are
the oracles for `create_dirs`, the download-and-unpack chain, and the
rollback's directory removal. -/
def createSession (st : St) (sid : String) (name : String) (tags : List String)
    (note : Option String) (mkDirOk : Bool) (prov : Except Error Unit)
    (rollbackClearOk : Bool) : Except Error String × St :=
  let path := sid
  let ws := (Workspace.mk name path []).add_tags tags
  if mkDirOk = false then (Except.error (Error.ioError "cannot create workspace dirs"), st)
  else
    let sess : SessionInfo :=
      { workspace := ws, status := PeerSessionStatus.PENDING,
        dirty := false, note := note, processes := [] }
    let st1 : St := { reg := (sid, sess) :: st.reg, dirs := path :: st.dirs }
    match prov with
    | Except.ok _ =>
      match lookupA st1.reg sid with
      | some s =>
        (Except.ok sid,
         { st1 with reg := updateA st1.reg sid { s with status := PeerSessionStatus.CREATED } })
      | none =>
        match destroyDeploy st1 sid rollbackClearOk with
        | (Except.ok _, st2) =>
          (Except.error (Error.ioError ("creating session error: " ++ (Error.noSuchSession sid).render)), st2)
        | (Except.error e2, st2) => (Except.error e2, st2)
    | Except.error cause =>
      match destroyDeploy st1 sid rollbackClearOk with
      | (Except.ok _, st2) =>
        (Except.error (Error.ioError ("creating session error: " ++ cause.render)), st2)
      | (Except.error e2, st2) => (Except.error e2, st2)

/-- A request event against the actor, carrying the oracle outcomes of
its external effects.  `create` carries the generated session id (the
generation contract makes it distinct from every live id, enforced by the
guard in `applyOp`). -/
inductive Op
  | create (sid : String) (name : String) (tags : List String) (note : Option String)
           (mkDirOk : Bool) (prov : Except Error Unit) (rollbackClearOk : Bool)
  | update (sid : String) (evs : List CmdEvent)
  | scan
  | destroy (sid : String) (clearOk : Bool)

/-- Apply one request to the actor state, discarding the reply. -/
def applyOp (st : St) : Op → St
  | .create sid name tags note mkDirOk prov rollbackClearOk =>
    if containsA st.reg sid then st
    else (createSession st sid name tags note mkDirOk prov rollbackClearOk).2
  | .update sid evs => (handleSessionUpdate st sid evs).2
  | .scan => scanForProcesses st
  | .destroy sid clearOk => (handleDestroySession st sid clearOk).2

/-- The actor state reached by a sequence of requests from startup. -/
def runOps (ops : List Op) : St :=
  ops.foldl applyOp { reg := [], dirs := [] }

/-- A `Stop` command whose kill round-trip succeeded with a `Kill`
result; the other commands' oracles are unrestricted. -/
def goodEv : CmdEvent → Bool
  | .stop _ (KillEv.ok _) => true
  | .stop _ _ => false
  | _ => true

/-- Requests whose `Stop` kill round-trips all succeed. -/
def goodOp : Op → Bool
  | .update _ evs => evs.all goodEv
  | _ => true

/-- Commands on which the source's match arm is `()` — `Open` and `Close`
extend the future chain with nothing at all. -/
def isOpenClose : CmdEvent → Bool
  | .openC => true
  | .closeC => true
  | _ => false

/-- The number of commands of a pipeline that contribute an output entry
to the success trail (every command except `Open` and `Close`). -/
def countOut (evs : List CmdEvent) : Nat :=
  (evs.filter (fun e => !isOpenClose e)).length

/-- A live child process whose kill and wait would succeed. -/
def child0 : Child := { finished := false, killFails := false, waitFails := false }

/-- A freshly provisioned, empty session (concrete test fixture). -/
def sess0 : SessionInfo :=
  { workspace := { name := "w", path := "s1", tags := [] },
    status := PeerSessionStatus.CREATED, dirty := false, note := none, processes := [] }

/-- A registry holding the single session `s1` (concrete test fixture). -/
def st0 : St := { reg := [("s1", sess0)], dirs := ["s1"] }

/-- The state of `st0` after one successful `Exec` command. -/
def c1Mid : St := (runPipeline "s1" [CmdEvent.exec (ExecEv.ok "outA")] st0 []).2

/-- Create a session and start one child in it. -/
def c2PreOps : List Op :=
  [Op.create "s1" "w" [] none true (Except.ok ()) true,
   Op.update "s1" [CmdEvent.start (SpawnEv.ok child0)]]

/-- Stop that child, with a successful kill round-trip. -/
def c2Op : Op := Op.update "s1" [CmdEvent.stop "p0" (KillEv.ok "stopped")]

/-- Create a session, start one child, then stop it with a kill
round-trip that fails (the kill request does not return a `Kill`
result — e.g. the child already exited). -/
def c2CexOps : List Op :=
  [Op.create "s1" "w" [] none true (Except.ok ()) true,
   Op.update "s1" [CmdEvent.start (SpawnEv.ok child0)],
   Op.update "s1" [CmdEvent.stop "p0" (KillEv.execErr "kill failed")]]

/-- Create a session and run one successful `Exec` in it (no `Start`
command anywhere in the trace). -/
def c10Ops : List Op :=
  [Op.create "s1" "w" [] none true (Except.ok ()) true,
   Op.update "s1" [CmdEvent.exec (ExecEv.ok "o")]]

/-- A registry holding one running session with one tracked child whose
`kill()` and `wait()` calls fail. -/
def c6CexSt : St :=
  { reg := [("s1", { workspace := { name := "w", path := "s1", tags := [] },
                     status := PeerSessionStatus.RUNNING, dirty := true, note := none,
                     processes := [("p0", { finished := false, killFails := true, waitFails := true })] })],
    dirs := ["s1"] }

/-- A child process whose `try_wait` reports that it has finished. -/
def childF : Child := { finished := true, killFails := false, waitFails := false }

/-- A running session with one finished tracked child (reaper fixture). -/
def sess7 : SessionInfo :=
  { workspace := { name := "w", path := "s7", tags := [] },
    status := PeerSessionStatus.RUNNING, dirty := true, note := none,
    processes := [("p0", childF)] }

/-- A registry holding `sess7` under the id `s7`. -/
def st7 : St := { reg := [("s7", sess7)], dirs := ["s7"] }

/-- The claimed session invariant over a registry: a session is `RUNNING`
exactly when its process table is non-empty. -/
def InvReg (reg : List (String × SessionInfo)) : Prop :=
  ∀ sid s, lookupA reg sid = some s →
    (s.status = PeerSessionStatus.RUNNING ↔ s.processes ≠ [])

/-- The status transitions an existing session can undergo in one
operation: stay, or move to `RUNNING` or `CONFIGURED`. -/
def statusStep (a b : PeerSessionStatus) : Prop :=
  b = a ∨ b = PeerSessionStatus.RUNNING ∨ b = PeerSessionStatus.CONFIGURED

/-- The session `s1` after `c2PreOps` (create, then start one child). -/
def c2S : SessionInfo := (lookupA (runOps c2PreOps).reg "s1").getD sess0

/-- The session `s1` after `c2PreOps` followed by `c2Op` (a clean stop). -/
def c2S' : SessionInfo := (lookupA (runOps (c2PreOps ++ [c2Op])).reg "s1").getD sess0

theorem lookupA_updateA {α : Type} (l : List (String × α)) (key k : String) (v : α) :
    lookupA (updateA l key v) k =
      if k = key then (lookupA l key).map (fun _ => v) else lookupA l k := by
  induction l with
  | nil => simp [lookupA, updateA]
  | cons p rest ih =>
    obtain ⟨pk, pv⟩ := p
    simp only [updateA, lookupA]
    by_cases h1 : pk = key
    · subst h1
      by_cases h2 : pk = k
      · subst h2; simp [lookupA]
      · have hk : ¬ k = pk := fun h => h2 h.symm
        simp [lookupA, h2, hk, ih]
    · by_cases h2 : pk = k
      · subst h2
        have hk : ¬ pk = key := h1
        simp [lookupA, h1, hk]
      · simp [lookupA, h1, h2, ih]

theorem containsA_updateA {α : Type} (l : List (String × α)) (key k : String) (v : α) :
    containsA (updateA l key v) k = containsA l k := by
  by_cases h : k = key
  · subst h
    simp only [containsA, lookupA_updateA, if_pos rfl]
    cases lookupA l k <;> simp
  · simp [containsA, lookupA_updateA, h]

theorem lookupA_removeA {α : Type} (l : List (String × α)) (key k : String) :
    lookupA (removeA l key) k = if k = key then none else lookupA l k := by
  induction l with
  | nil => simp [lookupA, removeA]
  | cons p rest ih =>
    obtain ⟨pk, pv⟩ := p
    simp only [removeA, lookupA]
    by_cases h1 : pk = key
    · subst h1
      by_cases h2 : pk = k
      · subst h2; simp [ih]
      · have hk : ¬ k = pk := fun h => h2 h.symm
        simp [lookupA, h2, hk, ih]
    · by_cases h2 : pk = k
      · subst h2
        have hk : ¬ pk = key := h1
        simp [lookupA, h1, hk]
      · simp [lookupA, h1, h2, ih]

theorem lookupA_mapVal {α β : Type} (f : α → β) (l : List (String × α)) (k : String) :
    lookupA (l.map (fun p => (p.1, f p.2))) k = (lookupA l k).map f := by
  induction l with
  | nil => simp [lookupA]
  | cons p rest ih =>
    obtain ⟨pk, pv⟩ := p
    by_cases h : pk = k <;> simp [lookupA, h, ih]

theorem containsA_stepCmd (sid : String) (e : CmdEvent) (st : St) (trail : List String)
    (k : String) :
    containsA (stepCmd sid e st trail).2.reg k = containsA st.reg k := by
  cases e with
  | openC => rfl
  | closeC => rfl
  | exec ev =>
    cases ev with
    | err m => rfl
    | ok out =>
      cases hl : lookupA st.reg sid <;> simp [stepCmd, hl, containsA_updateA]
  | start ev =>
    cases ev with
    | err m => rfl
    | ok child =>
      cases hl : lookupA st.reg sid <;> simp [stepCmd, hl, containsA_updateA]
  | stop childId kev =>
    cases hl : lookupA st.reg sid with
    | none => simp [stepCmd, hl]
    | some s =>
      cases hc : lookupA s.processes childId with
      | none => simp [stepCmd, hl, hc]
      | some c =>
        cases kev with
        | sendErr m => simp [stepCmd, hl, hc, containsA_updateA]
        | execErr r => simp [stepCmd, hl, hc, containsA_updateA]
        | ok output => simp [stepCmd, hl, hc, lookupA_updateA, containsA_updateA]
  | addTags tags =>
    cases hl : lookupA st.reg sid <;> simp [stepCmd, hl, containsA_updateA]
  | delTags tags =>
    cases hl : lookupA st.reg sid <;> simp [stepCmd, hl, containsA_updateA]
  | downloadFile uri res => cases res <;> rfl
  | uploadFile uri res => cases res <;> rfl

theorem containsA_runPipeline (sid : String) (evs : List CmdEvent) :
    ∀ (st : St) (trail : List String) (k : String),
    containsA (runPipeline sid evs st trail).2.reg k = containsA st.reg k := by
  induction evs with
  | nil => intro st trail k; rfl
  | cons e rest ih =>
    intro st trail k
    have hstep := containsA_stepCmd sid e st trail k
    cases hs : stepCmd sid e st trail with
    | mk r st1 =>
      rw [hs] at hstep
      cases r with
      | ok t1 =>
        simp only [runPipeline, hs]
        rw [ih st1 t1 k]
        exact hstep
      | error v =>
        simp only [runPipeline, hs]
        exact hstep

theorem stepCmd_ok_trail (sid : String) (e : CmdEvent) (st : St) (trail trail1 : List String)
    (st1 : St) (h : stepCmd sid e st trail = (Except.ok trail1, st1)) :
    ∃ out, trail1 = if isOpenClose e then trail else trail ++ [out] := by
  cases e with
  | openC =>
    simp only [stepCmd, Prod.mk.injEq, Except.ok.injEq] at h
    exact ⟨"", by simp [isOpenClose, ← h.1]⟩
  | closeC =>
    simp only [stepCmd, Prod.mk.injEq, Except.ok.injEq] at h
    exact ⟨"", by simp [isOpenClose, ← h.1]⟩
  | exec ev =>
    cases ev with
    | err m => simp [stepCmd] at h
    | ok out =>
      cases hl : lookupA st.reg sid with
      | none => simp [stepCmd, hl] at h
      | some s =>
        simp only [stepCmd, hl, Prod.mk.injEq, Except.ok.injEq] at h
        exact ⟨out, by simp [isOpenClose, ← h.1]⟩
  | start ev =>
    cases ev with
    | err m => simp [stepCmd] at h
    | ok child =>
      cases hl : lookupA st.reg sid with
      | none => simp [stepCmd, hl] at h
      | some s =>
        simp only [stepCmd, hl, Prod.mk.injEq, Except.ok.injEq] at h
        exact ⟨(s.insert_process child).1, by simp [isOpenClose, ← h.1]⟩
  | stop childId kev =>
    cases hl : lookupA st.reg sid with
    | none => simp [stepCmd, hl] at h
    | some s =>
      cases hc : lookupA s.processes childId with
      | none => simp [stepCmd, hl, hc] at h
      | some c =>
        cases kev with
        | sendErr m => simp [stepCmd, hl, hc] at h
        | execErr r => simp [stepCmd, hl, hc] at h
        | ok output =>
          simp only [stepCmd, hl, hc, lookupA_updateA, if_pos, Option.map_some',
            Prod.mk.injEq, Except.ok.injEq] at h
          exact ⟨output, by simp [isOpenClose, ← h.1]⟩
  | addTags tags =>
    cases hl : lookupA st.reg sid with
    | none => simp [stepCmd, hl] at h
    | some s =>
      simp only [stepCmd, hl, Prod.mk.injEq, Except.ok.injEq] at h
      exact ⟨"tags inserted. Current tags are: " ++
        reprTags (tags.foldl (fun w t => w.add_tags [t]) s.workspace).tags,
        by simp [isOpenClose, ← h.1]⟩
  | delTags tags =>
    cases hl : lookupA st.reg sid with
    | none => simp [stepCmd, hl] at h
    | some s =>
      simp only [stepCmd, hl, Prod.mk.injEq, Except.ok.injEq] at h
      exact ⟨"tags removed. Current tags are: " ++ reprTags (s.workspace.remove_tags tags).tags,
        by simp [isOpenClose, ← h.1]⟩
  | downloadFile uri res =>
    cases res with
    | err m => simp [stepCmd] at h
    | ok out =>
      simp only [stepCmd, Prod.mk.injEq, Except.ok.injEq] at h
      exact ⟨uri ++ " file downloaded", by simp [isOpenClose, ← h.1]⟩
  | uploadFile uri res =>
    cases res with
    | err m => simp [stepCmd] at h
    | ok out =>
      simp only [stepCmd, Prod.mk.injEq, Except.ok.injEq] at h
      exact ⟨uri ++ " file uploaded", by simp [isOpenClose, ← h.1]⟩

theorem stepCmd_err_trail (sid : String) (e : CmdEvent) (st : St) (trail v : List String)
    (st1 : St) (hc : containsA st.reg sid = true)
    (h : stepCmd sid e st trail = (Except.error v, st1)) :
    ∃ m, v = trail ++ [m] := by
  obtain ⟨s, hl⟩ : ∃ s, lookupA st.reg sid = some s := by
    unfold containsA at hc
    cases hx : lookupA st.reg sid with
    | none => rw [hx] at hc; simp at hc
    | some s => exact ⟨s, rfl⟩
  cases e with
  | openC => simp [stepCmd] at h
  | closeC => simp [stepCmd] at h
  | exec ev =>
    cases ev with
    | err m =>
      simp only [stepCmd, Prod.mk.injEq, Except.error.injEq] at h
      exact ⟨m, h.1.symm⟩
    | ok out => simp [stepCmd, hl] at h
  | start ev =>
    cases ev with
    | err m =>
      simp only [stepCmd, Prod.mk.injEq, Except.error.injEq] at h
      exact ⟨m, h.1.symm⟩
    | ok child => simp [stepCmd, hl] at h
  | stop childId kev =>
    cases hp : lookupA s.processes childId with
    | none =>
      simp only [stepCmd, hl, hp, Prod.mk.injEq, Except.error.injEq] at h
      exact ⟨(Error.noSuchChild childId).render, h.1.symm⟩
    | some c =>
      cases kev with
      | sendErr m =>
        simp only [stepCmd, hl, hp, Prod.mk.injEq, Except.error.injEq] at h
        exact ⟨m, h.1.symm⟩
      | execErr r =>
        simp only [stepCmd, hl, hp, Prod.mk.injEq, Except.error.injEq] at h
        exact ⟨"wrong result " ++ r, h.1.symm⟩
      | ok output => simp [stepCmd, hl, hp, lookupA_updateA] at h
  | addTags tags => simp [stepCmd, hl] at h
  | delTags tags => simp [stepCmd, hl] at h
  | downloadFile uri res =>
    cases res with
    | ok out => simp [stepCmd] at h
    | err m =>
      simp only [stepCmd, Prod.mk.injEq, Except.error.injEq] at h
      exact ⟨m, h.1.symm⟩
  | uploadFile uri res =>
    cases res with
    | ok out => simp [stepCmd] at h
    | err m =>
      simp only [stepCmd, Prod.mk.injEq, Except.error.injEq] at h
      exact ⟨m, h.1.symm⟩

theorem runPipeline_append (sid : String) (xs ys : List CmdEvent) :
    ∀ (st : St) (trail : List String),
    runPipeline sid (xs ++ ys) st trail =
      match runPipeline sid xs st trail with
      | (Except.ok t1, st1) => runPipeline sid ys st1 t1
      | (Except.error v, st1) => (Except.error v, st1) := by
  induction xs with
  | nil => intro st trail; rfl
  | cons e rest ih =>
    intro st trail
    simp only [List.cons_append, runPipeline]
    cases hs : stepCmd sid e st trail with
    | mk r st1 =>
      cases r with
      | ok t1 => simp [ih st1 t1]
      | error vv => simp

theorem runPipeline_ok_length (sid : String) (evs : List CmdEvent) :
    ∀ (st : St) (trail trail1 : List String) (st1 : St),
    runPipeline sid evs st trail = (Except.ok trail1, st1) →
    trail1.length = trail.length + countOut evs := by
  induction evs with
  | nil =>
    intro st trail trail1 st1 h
    simp only [runPipeline, Prod.mk.injEq, Except.ok.injEq] at h
    simp [← h.1, countOut]
  | cons e rest ih =>
    intro st trail trail1 st1 h
    simp only [runPipeline] at h
    cases hs : stepCmd sid e st trail with
    | mk r stm =>
      rw [hs] at h
      cases r with
      | error v => simp at h
      | ok tmid =>
        simp only at h
        obtain ⟨out, hout⟩ := stepCmd_ok_trail sid e st trail tmid stm hs
        have hlen := ih stm tmid trail1 st1 h
        by_cases hoc : isOpenClose e
        · rw [hlen, hout]
          simp [hoc, countOut, List.filter]
        · rw [hlen, hout]
          simp only [hoc, if_false]
          simp [countOut, List.filter, hoc]
          omega

/-- C1: for every session id present in the registry and every ordered
command list, the pipeline executor runs the commands strictly in list
order; on the first command that fails it stops processing all remaining
commands (the result does not depend on the commands after the failure)
and returns the error variant carrying the outputs of every previously
successful command followed by the single failure message of the failing
command. -/
theorem pipeline_first_failure_short_circuits
    (st : St) (sid : String) (pre : List CmdEvent) (e : CmdEvent) (rest : List CmdEvent)
    (trail : List String) (st1 : St) (v : List String) (st2 : St)
    (hsess : containsA st.reg sid = true)
    (hpre : runPipeline sid pre st [] = (Except.ok trail, st1))
    (hfail : stepCmd sid e st1 trail = (Except.error v, st2)) :
    handleSessionUpdate st sid (pre ++ e :: rest) = (Except.error v, st2) ∧
      ∃ m, v = trail ++ [m] := by
  have hc1 : containsA st1.reg sid = true := by
    have hp := containsA_runPipeline sid pre st [] sid
    rw [hpre] at hp
    rw [hp]
    exact hsess
  constructor
  · unfold handleSessionUpdate
    rw [if_pos hsess]
    rw [runPipeline_append sid pre (e :: rest) st []]
    rw [hpre]
    simp only [runPipeline]
    rw [hfail]
  · exact stepCmd_err_trail sid e st1 trail v st2 hc1 hfail

/-- C1 witness: the pipeline `[Exec A, Exec B(fails), Exec C]` against the
registered session `s1` returns exactly the output of `A` followed by the
failure message of `B`, and `C` is not executed. -/
theorem pipeline_first_failure_short_circuits_witness :
    handleSessionUpdate st0 "s1"
        [CmdEvent.exec (ExecEv.ok "outA"), CmdEvent.exec (ExecEv.err "failB"),
         CmdEvent.exec (ExecEv.ok "outC")] = (Except.error ["outA", "failB"], c1Mid) :=
  (pipeline_first_failure_short_circuits st0 "s1" [CmdEvent.exec (ExecEv.ok "outA")]
    (CmdEvent.exec (ExecEv.err "failB")) [CmdEvent.exec (ExecEv.ok "outC")]
    ["outA"] c1Mid ["outA", "failB"] c1Mid (by decide) (by decide) (by decide)).1

/-- C3: a `SessionUpdate` request against an unregistered session id fails
with the `NoSuchSession` error before any command of the pipeline is
executed (the result is the same for every command list) and leaves the
state unchanged. -/
theorem unknown_session_rejected (st : St) (sid : String) (evs : List CmdEvent)
    (h : containsA st.reg sid = false) :
    handleSessionUpdate st sid evs =
      (Except.error [(Error.noSuchSession sid).render], st) := by
  unfold handleSessionUpdate
  simp [h]

/-- C3 witness: a request against the id `ghost`, absent from `st0`,
fails with `NoSuchSession` and changes nothing. -/
theorem unknown_session_rejected_witness :
    handleSessionUpdate st0 "ghost" [CmdEvent.exec (ExecEv.ok "x")] =
      (Except.error [(Error.noSuchSession "ghost").render], st0) :=
  unknown_session_rejected st0 "ghost" [CmdEvent.exec (ExecEv.ok "x")] (by decide)

/-- C5: `Stop` on a child id absent from the session's process table
fails with `NoSuchChild` and leaves the whole actor state — in
particular the session's process map and status — unchanged, whatever
the kill oracle would have said. -/
theorem stop_unknown_child_no_effect (st : St) (sid : String) (s : SessionInfo)
    (childId : String) (kev : KillEv) (trail : List String)
    (hs : lookupA st.reg sid = some s)
    (habs : lookupA s.processes childId = none) :
    stepCmd sid (CmdEvent.stop childId kev) st trail =
      (Except.error (trail ++ [(Error.noSuchChild childId).render]), st) := by
  simp [stepCmd, hs, habs]

/-- C5 witness: stopping the unknown child `p9` of session `s1` fails
with `NoSuchChild` and leaves the state unchanged. -/
theorem stop_unknown_child_no_effect_witness :
    stepCmd "s1" (CmdEvent.stop "p9" (KillEv.ok "never")) st0 [] =
      (Except.error [(Error.noSuchChild "p9").render], st0) :=
  stop_unknown_child_no_effect st0 "s1" sess0 "p9" (KillEv.ok "never") []
    (by decide) (by decide)

/-- C8 counterexample: the pipeline `[Open]` against a valid session
succeeds with an empty trail, so the success trail does not contain one
output string per command of the submitted list. -/
theorem trail_one_output_per_command_counterexample :
    (handleSessionUpdate st0 "s1" [CmdEvent.openC]).1 = Except.ok [] ∧
      ([] : List String).length ≠ [CmdEvent.openC].length := by
  constructor
  · decide
  · decide

/-- C8 (amended): for every pipeline that completes without any command
failing, the success trail contains exactly one output string per
command of the submitted list other than `Open` and `Close`, which
contribute no output. -/
theorem success_trail_one_output_per_command (st : St) (sid : String) (evs : List CmdEvent)
    (trail : List String) (st1 : St)
    (h : handleSessionUpdate st sid evs = (Except.ok trail, st1)) :
    trail.length = countOut evs := by
  unfold handleSessionUpdate at h
  by_cases hc : containsA st.reg sid = true
  · rw [if_pos hc] at h
    have hlen := runPipeline_ok_length sid evs st [] trail st1 h
    simpa using hlen
  · rw [if_neg hc] at h
    simp at h

/-- C8 witness: a four-command pipeline with one `Open` and one `Close`
yields a success trail of exactly two outputs. -/
theorem success_trail_one_output_per_command_witness :
    (["a", "tags inserted. Current tags are: t"] : List String).length =
      countOut [CmdEvent.openC, CmdEvent.exec (ExecEv.ok "a"), CmdEvent.closeC,
                CmdEvent.addTags ["t"]] :=
  success_trail_one_output_per_command st0 "s1"
    [CmdEvent.openC, CmdEvent.exec (ExecEv.ok "a"), CmdEvent.closeC, CmdEvent.addTags ["t"]]
    ["a", "tags inserted. Current tags are: t"]
    (handleSessionUpdate st0 "s1"
      [CmdEvent.openC, CmdEvent.exec (ExecEv.ok "a"), CmdEvent.closeC,
       CmdEvent.addTags ["t"]]).2
    (by decide)

theorem insertTag_idem (ts : List String) (x : String) :
    insertTag (insertTag ts x) x = insertTag ts x := by
  unfold insertTag
  by_cases h : x ∈ ts
  · simp [h]
  · simp [h]

/-- C9: adding the same tag twice yields the same resulting tag set as
adding it once — `AddTags([x])` is idempotent on the session's tag set. -/
theorem addtags_idempotent (st : St) (sid : String) (s : SessionInfo) (x : String)
    (t1 t2 : List String) (hs : lookupA st.reg sid = some s) :
    (lookupA ((stepCmd sid (CmdEvent.addTags [x])
          ((stepCmd sid (CmdEvent.addTags [x]) st t1).2) t2).2).reg sid).map
        (fun u => u.workspace.tags)
      = (lookupA ((stepCmd sid (CmdEvent.addTags [x]) st t1).2).reg sid).map
          (fun u => u.workspace.tags) := by
  simp [stepCmd, hs, lookupA_updateA, Workspace.add_tags, insertTag_idem]

/-- C9 witness: adding tag `t` twice to session `s1` leaves the same tag
set as adding it once. -/
theorem addtags_idempotent_witness :
    (lookupA ((stepCmd "s1" (CmdEvent.addTags ["t"])
          ((stepCmd "s1" (CmdEvent.addTags ["t"]) st0 []).2) []).2).reg "s1").map
        (fun u => u.workspace.tags)
      = (lookupA ((stepCmd "s1" (CmdEvent.addTags ["t"]) st0 []).2).reg "s1").map
          (fun u => u.workspace.tags) :=
  addtags_idempotent st0 "s1" sess0 "t" [] [] (by decide)

/-- C10: a successful `Exec` command marks the session dirty while
leaving its process table exactly as it was; and the session of the
concrete trace `c10Ops`, which contains no `Start` command, ends dirty
with an empty process table — so `dirty = true` does not imply that any
process was ever inserted. -/
theorem exec_marks_dirty_without_processes (st : St) (sid : String) (s : SessionInfo)
    (out : String) (trail trail1 : List String) (st1 : St)
    (hs : lookupA st.reg sid = some s)
    (hrun : stepCmd sid (CmdEvent.exec (ExecEv.ok out)) st trail = (Except.ok trail1, st1)) :
    (lookupA st1.reg sid).map (fun u => (u.dirty, u.processes)) = some (true, s.processes) ∧
      (lookupA (runOps c10Ops).reg "s1").map (fun u => (u.dirty, u.processes))
        = some (true, []) := by
  constructor
  · have hst : st1 = { st with reg := updateA st.reg sid { s with dirty := true } } := by
      simp only [stepCmd, hs, Prod.mk.injEq, Except.ok.injEq] at hrun
      exact hrun.2.symm
    rw [hst]
    simp [lookupA_updateA, hs]
  · decide

/-- C10 witness: a successful `Exec` against the fresh session `s1` of
`st0` sets its dirty flag with the process table still empty, and the
`c10Ops` trace reaches a dirty session with no process ever inserted. -/
theorem exec_marks_dirty_without_processes_witness :
    (lookupA (stepCmd "s1" (CmdEvent.exec (ExecEv.ok "o")) st0 []).2.reg "s1").map
        (fun u => (u.dirty, u.processes)) = some (true, sess0.processes) ∧
      (lookupA (runOps c10Ops).reg "s1").map (fun u => (u.dirty, u.processes))
        = some (true, []) :=
  exec_marks_dirty_without_processes st0 "s1" sess0 "o" []
    ((stepCmd "s1" (CmdEvent.exec (ExecEv.ok "o")) st0 []).1.toOption.getD [])
    (stepCmd "s1" (CmdEvent.exec (ExecEv.ok "o")) st0 []).2 (by decide) (by decide)

/-- C4: when provisioning fails during session creation, the
partially-created session is rolled back; with the rollback succeeding
the surfaced error is `IoError("creating session error: ...")` wrapping
the original provisioning cause, the session id is no longer registered
and the workspace directory no longer exists; when the rollback's
directory removal itself fails, the rollback error is surfaced and the
session stays registered. -/
theorem create_provision_failure_rolls_back (st : St) (sid name : String)
    (tags : List String) (note : Option String) (cause : Error) :
    (createSession st sid name tags note true (Except.error cause) true).1
        = Except.error (Error.ioError ("creating session error: " ++ cause.render)) ∧
      containsA (createSession st sid name tags note true (Except.error cause) true).2.reg sid
        = false ∧
      ¬ sid ∈ (createSession st sid name tags note true (Except.error cause) true).2.dirs ∧
      (createSession st sid name tags note true (Except.error cause) false).1
        = Except.error (Error.ioError "cannot clear workspace dir") ∧
      containsA (createSession st sid name tags note true (Except.error cause) false).2.reg sid
        = true := by
  refine ⟨?_, ?_, ?_, ?_, ?_⟩ <;>
    simp [createSession, destroyDeploy, SessionInfo.destroySI, Workspace.add_tags,
      lookupA, containsA, lookupA_removeA, List.mem_filter]

/-- C6 counterexample: destroying a session whose only tracked child
fails both `kill()` and `wait()` succeeds anyway and unregisters the
session — a kill/wait step failure does not surface as the destroy error
and does not keep the session registered. -/
theorem destroy_ignores_kill_failure_counterexample :
    handleDestroySession c6CexSt "s1" true =
      (Except.ok "Session closed", { reg := [], dirs := [] }) := by
  decide

/-- C6 (amended): session destruction best-effort kills and waits on
every tracked child with those results discarded; only the workspace
directory removal's failure surfaces as the destroy error, in which case
the session remains registered so destroy can be retried, while on
success the session is unregistered. -/
theorem destroy_error_surfaces_only_clear_dir (st : St) (sid : String) (s : SessionInfo)
    (hs : lookupA st.reg sid = some s) :
    handleDestroySession st sid false =
        (Except.error (Error.ioError "cannot clear workspace dir"), st) ∧
      (handleDestroySession st sid true).1 = Except.ok "Session closed" ∧
      containsA (handleDestroySession st sid true).2.reg sid = false := by
  refine ⟨?_, ?_, ?_⟩ <;>
    simp [handleDestroySession, destroyDeploy, SessionInfo.destroySI, hs,
      containsA, lookupA_removeA]

/-- C6 witness: destroying the registered session `s1` with a failing
directory removal surfaces the clear-dir error and keeps the session;
with a succeeding removal it reports success and unregisters it. -/
theorem destroy_error_surfaces_only_clear_dir_witness :
    handleDestroySession st0 "s1" false =
        (Except.error (Error.ioError "cannot clear workspace dir"), st0) ∧
      (handleDestroySession st0 "s1" true).1 = Except.ok "Session closed" ∧
      containsA (handleDestroySession st0 "s1" true).2.reg "s1" = false :=
  destroy_error_surfaces_only_clear_dir st0 "s1" sess0 (by decide)

theorem removeA_eq_filter {α : Type} (l : List (String × α)) (key : String) :
    removeA l key = l.filter (fun p => decide (¬ p.1 = key)) := by
  induction l with
  | nil => rfl
  | cons p rest ih =>
    obtain ⟨pk, pv⟩ := p
    by_cases h : pk = key <;> simp [removeA, h, ih, List.filter]

theorem foldl_removeA (ids : List String) :
    ∀ (ps : List (String × Child)),
    ids.foldl (fun m f => removeA m f) ps = ps.filter (fun p => decide (¬ p.1 ∈ ids)) := by
  induction ids with
  | nil => intro ps; simp
  | cons i ids ih =>
    intro ps
    simp only [List.foldl_cons]
    rw [ih (removeA ps i), removeA_eq_filter, List.filter_filter]
    refine List.filter_congr ?_
    intro p _
    by_cases h1 : p.1 = i <;> by_cases h2 : p.1 ∈ ids <;> simp [h1, h2]

theorem scanSession_characterization (s : SessionInfo)
    (hnd : (s.processes.map Prod.fst).Nodup) :
    scanSession s = { s with
      processes := s.processes.filter (fun p => !p.2.finished),
      status := if s.processes.any (fun p => p.2.finished) = true ∧
                   s.processes.filter (fun p => !p.2.finished) = []
                then PeerSessionStatus.CONFIGURED else s.status } := by
  have hps : ((s.processes.filter (fun p => p.2.finished)).map Prod.fst).foldl
      (fun m f => removeA m f) s.processes
      = s.processes.filter (fun p => !p.2.finished) := by
    rw [foldl_removeA]
    refine List.filter_congr ?_
    intro p hp
    by_cases hf : p.2.finished = true
    · have hmem : p.1 ∈ (s.processes.filter (fun q => q.2.finished)).map Prod.fst :=
        List.mem_map.mpr ⟨p, List.mem_filter.mpr ⟨hp, by simp [hf]⟩, rfl⟩
      simp [hmem, hf]
    · have hnmem : ¬ p.1 ∈ (s.processes.filter (fun q => q.2.finished)).map Prod.fst := by
        intro hmem
        obtain ⟨q, hq, hq1⟩ := List.mem_map.mp hmem
        have hqp : q = p :=
          List.inj_on_of_nodup_map hnd (List.mem_filter.mp hq).1 hp hq1
        have hqf := (List.mem_filter.mp hq).2
        rw [hqp] at hqf
        simp [hf] at hqf
      simp [hnmem, hf]
  have hcond : (¬ ((((s.processes.filter (fun p => p.2.finished)).map Prod.fst).isEmpty) = true) ∧
      (((s.processes.filter (fun p => !p.2.finished)).isEmpty) = true)) ↔
      (s.processes.any (fun p => p.2.finished) = true ∧
        s.processes.filter (fun p => !p.2.finished) = []) := by
    constructor
    · rintro ⟨h1, h2⟩
      constructor
      · revert h1; simp [List.isEmpty_iff, List.filter_eq_nil_iff]
      · revert h2; simp [List.isEmpty_iff]
    · rintro ⟨h1, h2⟩
      constructor
      · revert h1
        simp [List.isEmpty_iff, List.filter_eq_nil_iff, List.any_eq_true]
      · simp [List.isEmpty_iff, h2]
  simp only [scanSession]
  rw [hps]
  by_cases hc2 : s.processes.any (fun p => p.2.finished) = true ∧
      s.processes.filter (fun p => !p.2.finished) = []
  · rw [if_pos (hcond.mpr hc2), if_pos hc2]
  · rw [if_neg (fun h => hc2 (hcond.mp h)), if_neg hc2]

/-- C7: one reaper pass visits every registered session; for each it
removes exactly the children whose termination poll reports completion,
and the status becomes `CONFIGURED` exactly when at least one child was
removed and the remaining process table is empty, staying unchanged
otherwise. -/
theorem reaper_scan_characterization (st : St) (sid : String) (s : SessionInfo)
    (hs : lookupA st.reg sid = some s)
    (hnd : (s.processes.map Prod.fst).Nodup) :
    lookupA (scanForProcesses st).reg sid = some { s with
      processes := s.processes.filter (fun p => !p.2.finished),
      status := if s.processes.any (fun p => p.2.finished) = true ∧
                   s.processes.filter (fun p => !p.2.finished) = []
                then PeerSessionStatus.CONFIGURED else s.status } := by
  unfold scanForProcesses
  simp only
  rw [lookupA_mapVal scanSession st.reg sid, hs]
  simp [scanSession_characterization s hnd]

/-- C7 witness: scanning a registry holding one running session whose
single child has finished removes that child and sets the session to
`CONFIGURED`. -/
theorem reaper_scan_characterization_witness :
    lookupA (scanForProcesses st7).reg "s7" = some { sess7 with
      processes := sess7.processes.filter (fun p => !p.2.finished),
      status := if sess7.processes.any (fun p => p.2.finished) = true ∧
                   sess7.processes.filter (fun p => !p.2.finished) = []
                then PeerSessionStatus.CONFIGURED else sess7.status } :=
  reaper_scan_characterization st7 "s7" sess7 (by decide) (by decide)

theorem updateA_updateA {α : Type} (l : List (String × α)) (k : String) (a b : α) :
    updateA (updateA l k a) k b = updateA l k b := by
  induction l with
  | nil => rfl
  | cons p rest ih =>
    obtain ⟨pk, pv⟩ := p
    by_cases h : pk = k <;> simp [updateA, h, ih]

theorem lookupA_cons_ne {α : Type} (l : List (String × α)) (k0 k : String) (v : α)
    (h : ¬ k0 = k) : lookupA ((k0, v) :: l) k = lookupA l k := by
  simp [lookupA, h]

theorem InvReg_update (reg : List (String × SessionInfo)) (sid : String) (x : SessionInfo)
    (hinv : InvReg reg)
    (hx : x.status = PeerSessionStatus.RUNNING ↔ x.processes ≠ []) :
    InvReg (updateA reg sid x) := by
  intro k s' hk
  rw [lookupA_updateA] at hk
  by_cases h : k = sid
  · rw [if_pos h] at hk
    cases hl : lookupA reg sid with
    | none => rw [hl] at hk; simp at hk
    | some s =>
      rw [hl] at hk
      simp only [Option.map_some'] at hk
      injection hk with h2
      rw [← h2]
      exact hx
  · rw [if_neg h] at hk
    exact hinv k s' hk

theorem InvReg_remove (reg : List (String × SessionInfo)) (sid : String)
    (hinv : InvReg reg) : InvReg (removeA reg sid) := by
  intro k s' hk
  rw [lookupA_removeA] at hk
  by_cases h : k = sid
  · rw [if_pos h] at hk; cases hk
  · rw [if_neg h] at hk; exact hinv k s' hk

theorem InvReg_cons (reg : List (String × SessionInfo)) (sid : String) (x : SessionInfo)
    (hinv : InvReg reg)
    (hx : x.status = PeerSessionStatus.RUNNING ↔ x.processes ≠ []) :
    InvReg ((sid, x) :: reg) := by
  intro k s' hk
  simp only [lookupA] at hk
  by_cases h : sid = k
  · rw [if_pos h] at hk
    injection hk with h2
    rw [← h2]
    exact hx
  · rw [if_neg h] at hk
    exact hinv k s' hk

theorem scanSession_inv (s : SessionInfo)
    (hs : s.status = PeerSessionStatus.RUNNING ↔ s.processes ≠ []) :
    (scanSession s).status = PeerSessionStatus.RUNNING ↔ (scanSession s).processes ≠ [] := by
  simp only [scanSession]
  by_cases hf : (s.processes.filter (fun p => p.2.finished)).map Prod.fst = []
  · rw [hf]
    simp only [List.foldl_nil, List.isEmpty_nil]
    simp [hs]
  · rw [foldl_removeA]
    by_cases hemp :
        (s.processes.filter (fun p =>
          decide (¬ p.1 ∈ (s.processes.filter (fun q => q.2.finished)).map Prod.fst))).isEmpty = true
    · rw [if_pos ⟨by simpa [List.isEmpty_iff] using hf, hemp⟩]
      have hps := List.isEmpty_iff.mp hemp
      constructor
      · intro hc; exact PeerSessionStatus.noConfusion hc
      · intro hne; exact absurd hps hne
    · rw [if_neg (fun hcontra => hemp hcontra.2)]
      simp only
      rw [List.isEmpty_iff] at hemp
      constructor
      · intro _; exact hemp
      · intro _
        rw [hs]
        intro hnil
        apply hemp
        rw [hnil]
        simp

theorem stepCmd_inv (sid : String) (e : CmdEvent) (st : St) (trail : List String)
    (hgood : goodEv e = true) (hinv : InvReg st.reg) :
    InvReg (stepCmd sid e st trail).2.reg := by
  cases e with
  | openC => exact hinv
  | closeC => exact hinv
  | exec ev =>
    cases ev with
    | err m => exact hinv
    | ok out =>
      cases hl : lookupA st.reg sid with
      | none => simp only [stepCmd, hl]; exact hinv
      | some s =>
        simp only [stepCmd, hl]
        exact InvReg_update st.reg sid _ hinv (hinv sid s hl)
  | start ev =>
    cases ev with
    | err m => exact hinv
    | ok child =>
      cases hl : lookupA st.reg sid with
      | none => simp only [stepCmd, hl]; exact hinv
      | some s =>
        simp only [stepCmd, hl]
        refine InvReg_update st.reg sid _ hinv ?_
        simp [SessionInfo.insert_process]
  | stop childId kev =>
    cases hl : lookupA st.reg sid with
    | none => simp only [stepCmd, hl]; exact hinv
    | some s =>
      cases hp : lookupA s.processes childId with
      | none => simp only [stepCmd, hl, hp]; exact hinv
      | some c =>
        cases kev with
        | sendErr m => simp [goodEv] at hgood
        | execErr r => simp [goodEv] at hgood
        | ok output =>
          have hl1 : lookupA (updateA st.reg sid
              { s with processes := removeA s.processes childId }) sid
              = some { s with processes := removeA s.processes childId } := by
            rw [lookupA_updateA, if_pos rfl, hl, Option.map_some']
          simp only [stepCmd, hl, hp, hl1]
          rw [updateA_updateA]
          by_cases hemp : (removeA s.processes childId).isEmpty = true
          · rw [if_pos ?hc]
            case hc => simpa using hemp
            refine InvReg_update st.reg sid _ hinv ?_
            constructor
            · intro hc2; exact PeerSessionStatus.noConfusion hc2
            · intro hne; exact absurd (List.isEmpty_iff.mp hemp) hne
          · rw [if_neg ?hc]
            case hc => simpa using hemp
            refine InvReg_update st.reg sid _ hinv ?_
            have hpne : s.processes ≠ [] := by
              intro hnil
              rw [hnil] at hp
              cases hp
            have hrun : s.status = PeerSessionStatus.RUNNING := (hinv sid s hl).mpr hpne
            constructor
            · intro _
              intro hnil
              rw [List.isEmpty_iff] at hemp
              exact hemp hnil
            · intro _; exact hrun
  | addTags tags =>
    cases hl : lookupA st.reg sid with
    | none => simp only [stepCmd, hl]; exact hinv
    | some s =>
      simp only [stepCmd, hl]
      exact InvReg_update st.reg sid _ hinv (hinv sid s hl)
  | delTags tags =>
    cases hl : lookupA st.reg sid with
    | none => simp only [stepCmd, hl]; exact hinv
    | some s =>
      simp only [stepCmd, hl]
      exact InvReg_update st.reg sid _ hinv (hinv sid s hl)
  | downloadFile uri res => cases res <;> exact hinv
  | uploadFile uri res => cases res <;> exact hinv

theorem runPipeline_inv (sid : String) (evs : List CmdEvent) :
    ∀ (st : St) (trail : List String), evs.all goodEv = true → InvReg st.reg →
    InvReg (runPipeline sid evs st trail).2.reg := by
  induction evs with
  | nil => intro st trail _ hinv; exact hinv
  | cons e rest ih =>
    intro st trail hgood hinv
    simp only [List.all_cons, Bool.and_eq_true] at hgood
    have hstep := stepCmd_inv sid e st trail hgood.1 hinv
    simp only [runPipeline]
    cases hs : stepCmd sid e st trail with
    | mk r st1 =>
      rw [hs] at hstep
      cases r with
      | ok t1 => exact ih st1 t1 hgood.2 hstep
      | error v => exact hstep

theorem applyOp_inv (st : St) (op : Op) (hgood : goodOp op = true)
    (hinv : InvReg st.reg) : InvReg (applyOp st op).reg := by
  cases op with
  | create sid name tags note mkDirOk prov rollbackClearOk =>
    simp only [applyOp]
    by_cases hc : containsA st.reg sid = true
    · rw [if_pos hc]; exact hinv
    · rw [if_neg hc]
      cases mkDirOk with
      | false => exact hinv
      | true =>
        have hsess : ∀ x : SessionInfo, x.status = PeerSessionStatus.PENDING →
            x.processes = [] →
            (x.status = PeerSessionStatus.RUNNING ↔ x.processes ≠ []) := by
          intro x h1 h2
          rw [h1, h2]
          constructor
          · intro hx; exact PeerSessionStatus.noConfusion hx
          · intro hx; exact absurd rfl hx
        cases prov with
        | ok u =>
          have key : (createSession st sid name tags note true (Except.ok u)
              rollbackClearOk).2.reg
              = updateA ((sid, { workspace := (Workspace.mk name sid []).add_tags tags,
                                 status := PeerSessionStatus.PENDING, dirty := false,
                                 note := note, processes := [] }) :: st.reg) sid
                  { workspace := (Workspace.mk name sid []).add_tags tags,
                    status := PeerSessionStatus.CREATED, dirty := false,
                    note := note, processes := [] } := by
            simp [createSession, lookupA]
          rw [key]
          refine InvReg_update _ sid _ (InvReg_cons st.reg sid _ hinv (hsess _ rfl rfl)) ?_
          constructor
          · intro hx; exact PeerSessionStatus.noConfusion hx
          · intro hx; exact absurd rfl hx
        | error cause =>
          cases rollbackClearOk with
          | true =>
            have key : (createSession st sid name tags note true (Except.error cause)
                true).2.reg
                = removeA ((sid, { workspace := (Workspace.mk name sid []).add_tags tags,
                                   status := PeerSessionStatus.PENDING, dirty := false,
                                   note := note, processes := [] }) :: st.reg) sid := by
              simp [createSession, lookupA, destroyDeploy, SessionInfo.destroySI]
            rw [key]
            exact InvReg_remove _ sid (InvReg_cons st.reg sid _ hinv (hsess _ rfl rfl))
          | false =>
            have key : (createSession st sid name tags note true (Except.error cause)
                false).2.reg
                = (sid, { workspace := (Workspace.mk name sid []).add_tags tags,
                          status := PeerSessionStatus.PENDING, dirty := false,
                          note := note, processes := [] }) :: st.reg := by
              simp [createSession, lookupA, destroyDeploy, SessionInfo.destroySI]
            rw [key]
            exact InvReg_cons st.reg sid _ hinv (hsess _ rfl rfl)
  | update sid evs =>
    simp only [applyOp, handleSessionUpdate]
    by_cases hc : containsA st.reg sid = true
    · rw [if_pos hc]
      exact runPipeline_inv sid evs st [] (by simpa [goodOp] using hgood) hinv
    · rw [if_neg hc]; exact hinv
  | scan =>
    intro k s' hk
    simp only [applyOp, scanForProcesses] at hk
    rw [lookupA_mapVal] at hk
    cases hl : lookupA st.reg k with
    | none => rw [hl] at hk; cases hk
    | some s =>
      rw [hl, Option.map_some'] at hk
      injection hk with h2
      rw [← h2]
      exact scanSession_inv s (hinv k s hl)
  | destroy sid clearOk =>
    simp only [applyOp, handleDestroySession, destroyDeploy]
    cases hl : lookupA st.reg sid with
    | none => exact hinv
    | some s =>
      simp only [SessionInfo.destroySI]
      cases clearOk with
      | true => exact InvReg_remove st.reg sid hinv
      | false => exact hinv

theorem foldl_applyOp_inv (ops : List Op) :
    ∀ (st : St), ops.all goodOp = true → InvReg st.reg →
    InvReg (ops.foldl applyOp st).reg := by
  induction ops with
  | nil => intro st _ hinv; exact hinv
  | cons op rest ih =>
    intro st hgood hinv
    simp only [List.all_cons, Bool.and_eq_true] at hgood
    simp only [List.foldl_cons]
    exact ih (applyOp st op) hgood.2 (applyOp_inv st op hgood.1 hinv)

theorem runOps_inv (ops : List Op) (hgood : ops.all goodOp = true) :
    InvReg (runOps ops).reg := by
  refine foldl_applyOp_inv ops _ hgood ?_
  intro k s hk
  cases hk

theorem statusStep_refl (a : PeerSessionStatus) : statusStep a a := Or.inl rfl

theorem statusStep_trans (a b c : PeerSessionStatus)
    (h1 : statusStep a b) (h2 : statusStep b c) : statusStep a c := by
  rcases h2 with h2 | h2 | h2
  · rw [h2]; exact h1
  · exact Or.inr (Or.inl h2)
  · exact Or.inr (Or.inr h2)

theorem statusStep_update (reg : List (String × SessionInfo)) (sid k : String)
    (sB x s s' : SessionInfo)
    (hl : lookupA reg sid = some sB)
    (hk : lookupA reg k = some s)
    (hk' : lookupA (updateA reg sid x) k = some s')
    (hx : statusStep sB.status x.status) :
    statusStep s.status s'.status := by
  rw [lookupA_updateA] at hk'
  by_cases h : k = sid
  · subst h
    rw [hk] at hl
    injection hl with hbs
    rw [if_pos rfl, hk, Option.map_some'] at hk'
    injection hk' with hxs
    rw [← hxs, hbs]
    exact hx
  · rw [if_neg h, hk] at hk'
    injection hk' with hss
    rw [← hss]
    exact statusStep_refl _

theorem statusStep_same (s s' : SessionInfo) (h : some s = some s') :
    statusStep s.status s'.status := by
  injection h with h2
  rw [← h2]
  exact statusStep_refl _

theorem stepCmd_statusStep (sid : String) (e : CmdEvent) (st : St) (trail : List String)
    (k : String) (s s' : SessionInfo)
    (hk : lookupA st.reg k = some s)
    (hk' : lookupA (stepCmd sid e st trail).2.reg k = some s') :
    statusStep s.status s'.status := by
  cases e with
  | openC =>
    simp only [stepCmd] at hk'
    rw [hk] at hk'; exact statusStep_same s s' hk'
  | closeC =>
    simp only [stepCmd] at hk'
    rw [hk] at hk'; exact statusStep_same s s' hk'
  | exec ev =>
    cases ev with
    | err m =>
      simp only [stepCmd] at hk'
      rw [hk] at hk'; exact statusStep_same s s' hk'
    | ok out =>
      cases hl : lookupA st.reg sid with
      | none =>
        simp only [stepCmd, hl] at hk'
        rw [hk] at hk'; exact statusStep_same s s' hk'
      | some s0 =>
        simp only [stepCmd, hl] at hk'
        exact statusStep_update st.reg sid k s0 _ s s' hl hk hk' (statusStep_refl _)
  | start ev =>
    cases ev with
    | err m =>
      simp only [stepCmd] at hk'
      rw [hk] at hk'; exact statusStep_same s s' hk'
    | ok child =>
      cases hl : lookupA st.reg sid with
      | none =>
        simp only [stepCmd, hl] at hk'
        rw [hk] at hk'; exact statusStep_same s s' hk'
      | some s0 =>
        simp only [stepCmd, hl] at hk'
        exact statusStep_update st.reg sid k s0 _ s s' hl hk hk' (Or.inr (Or.inl rfl))
  | stop childId kev =>
    cases hl : lookupA st.reg sid with
    | none =>
      simp only [stepCmd, hl] at hk'
      rw [hk] at hk'; exact statusStep_same s s' hk'
    | some s0 =>
      cases hp : lookupA s0.processes childId with
      | none =>
        simp only [stepCmd, hl, hp] at hk'
        rw [hk] at hk'; exact statusStep_same s s' hk'
      | some c =>
        have hl1 : lookupA (updateA st.reg sid
            { s0 with processes := removeA s0.processes childId }) sid
            = some { s0 with processes := removeA s0.processes childId } := by
          rw [lookupA_updateA, if_pos rfl, hl, Option.map_some']
        cases kev with
        | sendErr m =>
          simp only [stepCmd, hl, hp] at hk'
          exact statusStep_update st.reg sid k s0 _ s s' hl hk hk' (statusStep_refl _)
        | execErr r =>
          simp only [stepCmd, hl, hp] at hk'
          exact statusStep_update st.reg sid k s0 _ s s' hl hk hk' (statusStep_refl _)
        | ok output =>
          simp only [stepCmd, hl, hp, hl1] at hk'
          rw [updateA_updateA] at hk'
          by_cases hemp : (removeA s0.processes childId).isEmpty = true
          · rw [if_pos (by simpa using hemp)] at hk'
            exact statusStep_update st.reg sid k s0 _ s s' hl hk hk' (Or.inr (Or.inr rfl))
          · rw [if_neg (by simpa using hemp)] at hk'
            exact statusStep_update st.reg sid k s0 _ s s' hl hk hk' (statusStep_refl _)
  | addTags tags =>
    cases hl : lookupA st.reg sid with
    | none =>
      simp only [stepCmd, hl] at hk'
      rw [hk] at hk'; exact statusStep_same s s' hk'
    | some s0 =>
      simp only [stepCmd, hl] at hk'
      exact statusStep_update st.reg sid k s0 _ s s' hl hk hk' (statusStep_refl _)
  | delTags tags =>
    cases hl : lookupA st.reg sid with
    | none =>
      simp only [stepCmd, hl] at hk'
      rw [hk] at hk'; exact statusStep_same s s' hk'
    | some s0 =>
      simp only [stepCmd, hl] at hk'
      exact statusStep_update st.reg sid k s0 _ s s' hl hk hk' (statusStep_refl _)
  | downloadFile uri res =>
    cases res with
    | ok out =>
      simp only [stepCmd] at hk'
      rw [hk] at hk'; exact statusStep_same s s' hk'
    | err m =>
      simp only [stepCmd] at hk'
      rw [hk] at hk'; exact statusStep_same s s' hk'
  | uploadFile uri res =>
    cases res with
    | ok out =>
      simp only [stepCmd] at hk'
      rw [hk] at hk'; exact statusStep_same s s' hk'
    | err m =>
      simp only [stepCmd] at hk'
      rw [hk] at hk'; exact statusStep_same s s' hk'

theorem runPipeline_statusStep (sid : String) (evs : List CmdEvent) :
    ∀ (st : St) (trail : List String) (k : String) (s s' : SessionInfo),
    lookupA st.reg k = some s →
    lookupA (runPipeline sid evs st trail).2.reg k = some s' →
    statusStep s.status s'.status := by
  induction evs with
  | nil =>
    intro st trail k s s' hk hk'
    simp only [runPipeline] at hk'
    rw [hk] at hk'
    exact statusStep_same s s' hk'
  | cons e rest ih =>
    intro st trail k s s' hk hk'
    simp only [runPipeline] at hk'
    cases hs : stepCmd sid e st trail with
    | mk r st1 =>
      rw [hs] at hk'
      have hcont := containsA_stepCmd sid e st trail k
      rw [hs] at hcont
      have hmid : ∃ smid, lookupA st1.reg k = some smid := by
        have hct : containsA st1.reg k = true := by
          rw [hcont]; simp [containsA, hk]
        unfold containsA at hct
        cases hx : lookupA st1.reg k with
        | none => rw [hx] at hct; simp at hct
        | some smid => exact ⟨smid, rfl⟩
      obtain ⟨smid, hmid⟩ := hmid
      have h1 : statusStep s.status smid.status := by
        refine stepCmd_statusStep sid e st trail k s smid hk ?_
        rw [hs]
        exact hmid
      cases r with
      | ok t1 =>
        exact statusStep_trans _ _ _ h1 (ih st1 t1 k smid s' hmid hk')
      | error v =>
        simp only at hk'
        rw [hmid] at hk'
        injection hk' with h2
        rw [← h2]
        exact h1

theorem scanSession_statusStep (s : SessionInfo) :
    statusStep s.status (scanSession s).status := by
  simp only [scanSession]
  by_cases hcond : (¬ (((s.processes.filter (fun p => p.2.finished)).map Prod.fst).isEmpty = true)) ∧
      ((((s.processes.filter (fun p => p.2.finished)).map Prod.fst).foldl
        (fun m f => removeA m f) s.processes).isEmpty = true)
  · rw [if_pos hcond]
    exact Or.inr (Or.inr rfl)
  · rw [if_neg hcond]
    exact statusStep_refl _

theorem applyOp_statusStep (st : St) (op : Op) (k : String) (s s' : SessionInfo)
    (hk : lookupA st.reg k = some s)
    (hk' : lookupA (applyOp st op).reg k = some s') :
    statusStep s.status s'.status := by
  cases op with
  | create sid name tags note mkDirOk prov rollbackClearOk =>
    simp only [applyOp] at hk'
    by_cases hc : containsA st.reg sid = true
    · rw [if_pos hc, hk] at hk'
      exact statusStep_same s s' hk'
    · rw [if_neg hc] at hk'
      have hks : ¬ k = sid := by
        intro he
        subst he
        exact hc (by simp [containsA, hk])
      cases mkDirOk with
      | false =>
        have key : (createSession st sid name tags note false prov rollbackClearOk).2.reg
            = st.reg := by
          simp [createSession]
        rw [key, hk] at hk'
        exact statusStep_same s s' hk'
      | true =>
        cases prov with
        | ok u =>
          have key : (createSession st sid name tags note true (Except.ok u)
              rollbackClearOk).2.reg
              = updateA ((sid, { workspace := (Workspace.mk name sid []).add_tags tags,
                                 status := PeerSessionStatus.PENDING, dirty := false,
                                 note := note, processes := [] }) :: st.reg) sid
                  { workspace := (Workspace.mk name sid []).add_tags tags,
                    status := PeerSessionStatus.CREATED, dirty := false,
                    note := note, processes := [] } := by
            simp [createSession, lookupA]
          rw [key, lookupA_updateA, if_neg hks, lookupA_cons_ne _ _ _ _ (fun h => hks h.symm),
            hk] at hk'
          exact statusStep_same s s' hk'
        | error cause =>
          cases rollbackClearOk with
          | true =>
            have key : (createSession st sid name tags note true (Except.error cause)
                true).2.reg
                = removeA ((sid, { workspace := (Workspace.mk name sid []).add_tags tags,
                                   status := PeerSessionStatus.PENDING, dirty := false,
                                   note := note, processes := [] }) :: st.reg) sid := by
              simp [createSession, lookupA, destroyDeploy, SessionInfo.destroySI]
            rw [key, lookupA_removeA, if_neg hks,
              lookupA_cons_ne _ _ _ _ (fun h => hks h.symm), hk] at hk'
            exact statusStep_same s s' hk'
          | false =>
            have key : (createSession st sid name tags note true (Except.error cause)
                false).2.reg
                = (sid, { workspace := (Workspace.mk name sid []).add_tags tags,
                          status := PeerSessionStatus.PENDING, dirty := false,
                          note := note, processes := [] }) :: st.reg := by
              simp [createSession, lookupA, destroyDeploy, SessionInfo.destroySI]
            rw [key, lookupA_cons_ne _ _ _ _ (fun h => hks h.symm), hk] at hk'
            exact statusStep_same s s' hk'
  | update sid evs =>
    simp only [applyOp, handleSessionUpdate] at hk'
    by_cases hc : containsA st.reg sid = true
    · rw [if_pos hc] at hk'
      exact runPipeline_statusStep sid evs st [] k s s' hk hk'
    · rw [if_neg hc, hk] at hk'
      exact statusStep_same s s' hk'
  | scan =>
    simp only [applyOp, scanForProcesses] at hk'
    rw [lookupA_mapVal, hk, Option.map_some'] at hk'
    injection hk' with h2
    rw [← h2]
    exact scanSession_statusStep s
  | destroy sid clearOk =>
    simp only [applyOp] at hk'
    cases hl : lookupA st.reg sid with
    | none =>
      have key : (handleDestroySession st sid clearOk).2.reg = st.reg := by
        simp [handleDestroySession, destroyDeploy, hl]
      rw [key, hk] at hk'
      exact statusStep_same s s' hk'
    | some s0 =>
      cases clearOk with
      | true =>
        have key : (handleDestroySession st sid true).2.reg = removeA st.reg sid := by
          simp [handleDestroySession, destroyDeploy, hl, SessionInfo.destroySI]
        rw [key, lookupA_removeA] at hk'
        by_cases h : k = sid
        · rw [if_pos h] at hk'; cases hk'
        · rw [if_neg h, hk] at hk'
          exact statusStep_same s s' hk'
      | false =>
        have key : (handleDestroySession st sid false).2.reg = st.reg := by
          simp [handleDestroySession, destroyDeploy, hl, SessionInfo.destroySI]
        rw [key, hk] at hk'
        exact statusStep_same s s' hk'

theorem runOps_append (ops : List Op) (op : Op) :
    runOps (ops ++ [op]) = applyOp (runOps ops) op := by
  simp [runOps, List.foldl_append]

/-- C2 (amended): over every request trace in which each `Stop` kill
round-trip returns a successful `Kill` result, a registered session's
status is `RUNNING` exactly when its process table is non-empty; whenever
one further request takes the table from non-empty to empty the status
becomes `CONFIGURED`; and any status change moves only to `RUNNING` or
`CONFIGURED`, never back to `PENDING` or `CREATED`. -/
theorem session_status_invariant (ops : List Op) (op : Op) (sid : String)
    (s s' : SessionInfo)
    (hgood : (ops ++ [op]).all goodOp = true)
    (h : lookupA (runOps ops).reg sid = some s)
    (h' : lookupA (runOps (ops ++ [op])).reg sid = some s') :
    (s.status = PeerSessionStatus.RUNNING ↔ s.processes ≠ []) ∧
      (s.processes ≠ [] → s'.processes = [] → s'.status = PeerSessionStatus.CONFIGURED) ∧
      (s'.status ≠ s.status →
        s'.status = PeerSessionStatus.RUNNING ∨ s'.status = PeerSessionStatus.CONFIGURED) := by
  have hgood1 : ops.all goodOp = true := by
    rw [List.all_append, Bool.and_eq_true] at hgood
    exact hgood.1
  have hinv := runOps_inv ops hgood1
  have hinv' := runOps_inv (ops ++ [op]) hgood
  have hstep : statusStep s.status s'.status := by
    refine applyOp_statusStep (runOps ops) op sid s s' h ?_
    rw [← runOps_append]
    exact h'
  refine ⟨hinv sid s h, ?_, ?_⟩
  · intro hne hempty
    have hrun : s.status = PeerSessionStatus.RUNNING := (hinv sid s h).mpr hne
    have hnotrun : ¬ s'.status = PeerSessionStatus.RUNNING := by
      intro hp
      exact ((hinv' sid s' h').mp hp) hempty
    rcases hstep with hx | hx | hx
    · exact absurd (hx.trans hrun) hnotrun
    · exact absurd hx hnotrun
    · exact hx
  · intro hne
    rcases hstep with hx | hx | hx
    · exact absurd hx hne
    · exact Or.inl hx
    · exact Or.inr hx

/-- C2 witness: creating a session, starting one child and cleanly
stopping it — the invariant holds before, and the stop takes the table
from non-empty to empty with the status becoming `CONFIGURED`. -/
theorem session_status_invariant_witness :
    (c2S.status = PeerSessionStatus.RUNNING ↔ c2S.processes ≠ []) ∧
      (c2S.processes ≠ [] → c2S'.processes = [] →
        c2S'.status = PeerSessionStatus.CONFIGURED) ∧
      (c2S'.status ≠ c2S.status →
        c2S'.status = PeerSessionStatus.RUNNING ∨
          c2S'.status = PeerSessionStatus.CONFIGURED) :=
  session_status_invariant c2PreOps c2Op "s1" c2S c2S' (by decide) (by decide) (by decide)

/-- C2 counterexample: after create, start, and a `Stop` whose kill
round-trip does not return a `Kill` result (e.g. the child had already
exited), session `s1` is reachable with status `RUNNING` and an empty
process map, refuting the claimed equivalence as stated. -/
theorem status_running_iff_nonempty_counterexample :
    (lookupA (runOps c2CexOps).reg "s1").map (fun s => (s.status, s.processes))
      = some (PeerSessionStatus.RUNNING, []) := by decide
